import Mathlib

/-!
Verification of the document-analysis pipeline of the Self-defence
repository (`document_processor.py`).  The Python code manipulates
JSON-like dynamic values (dicts produced by `json.loads` and consumed by
the validator, fallback generator and report formatter); the embedding
models those values by the inductive type `PyVal`, Python dicts by
insertion-ordered association lists, and Python string helpers
(`strip`, `title`, `format(n, ',')`, `re.findall`) by executable Lean
functions over character lists.
-/

/-- Values of the dynamic JSON-like data the pipeline manipulates:
Python `None`, booleans, integers, strings, lists and dicts (dicts keep
insertion order, as Python dicts do). -/
inductive PyVal where
  | none
  | bool (b : Bool)
  | int (n : Int)
  | str (s : String)
  | list (xs : List PyVal)
  | dict (kvs : List (String × PyVal))

/-- A Python dict with string keys, as an insertion-ordered association list. -/
abbrev Assoc := List (String × PyVal)

/-- Embeds `d.get(k)` / `k in d`: the value at the first occurrence of key `k`. -/
def lookupKey : Assoc → String → Option PyVal
  | [], _ => Option.none
  | (k', v) :: rest, k => if k' = k then some v else lookupKey rest k

/-- Embeds `d[k] = v`: overwrite the value at an existing key in place,
otherwise append the new key at the end (Python dicts keep insertion order). -/
def setKey : Assoc → String → PyVal → Assoc
  | [], k, v => [(k, v)]
  | (k', v') :: rest, k, v =>
      if k' = k then (k', v) :: rest else (k', v') :: setKey rest k v

/-- Embeds `k in d`. -/
def hasKey (a : Assoc) (k : String) : Bool :=
  (lookupKey a k).isSome

/-- Characters of Python `s.strip()`: drop leading and trailing whitespace. -/
def stripChars (l : List Char) : List Char :=
  ((l.dropWhile Char.isWhitespace).reverse.dropWhile Char.isWhitespace).reverse

/-- Embeds Python `str.strip()` (ASCII whitespace suffices for this code). -/
def pyStrip (s : String) : String :=
  String.mk (stripChars s.data)

/-- Characters of Python `str.title()`: an alphabetic character is uppercased
after a non-alphabetic character and lowercased otherwise. -/
def pyTitleChars : List Char → Bool → List Char
  | [], _ => []
  | c :: cs, prevAlpha =>
      if c.isAlpha then
        (if prevAlpha then c.toLower else c.toUpper) :: pyTitleChars cs true
      else
        c :: pyTitleChars cs false

/-- Embeds Python `str.title()`. -/
def pyTitle (s : String) : String :=
  String.mk (pyTitleChars s.data false)

/-- Numeric value of a run of decimal digits. -/
def digitsToNat (l : List Char) : Nat :=
  l.foldl (fun acc c => acc * 10 + (c.toNat - '0'.toNat)) 0

/-- Embeds `re.findall(r'\d+', s)[0]`: the first maximal run of decimal
digits of the character list, if any. -/
def firstDigitRun : List Char → Option (List Char)
  | [] => Option.none
  | c :: cs =>
      if c.isDigit then some (c :: cs.takeWhile Char.isDigit)
      else firstDigitRun cs

/-- Integer value of the first digit run of a string, if any digit occurs. -/
def firstDigitRunNat (s : String) : Option Nat :=
  (firstDigitRun s.data).map digitsToNat

/-- Helper of the thousands-separator format: walks the reversed digit
characters inserting a comma before every group of three. -/
def commaRevAux : List Char → Nat → List Char
  | [], _ => []
  | c :: cs, i =>
      if i % 3 = 0 ∧ i ≠ 0 then ',' :: c :: commaRevAux cs (i + 1)
      else c :: commaRevAux cs (i + 1)

/-- Embeds Python `format(n, ',')` on a natural number. -/
def pyCommaNat (n : Nat) : String :=
  String.mk ((commaRevAux (toString n).data.reverse 0).reverse)

/-- Embeds Python `format(n, ',')` on an integer. -/
def pyCommaInt (n : Int) : String :=
  if n < 0 then "-" ++ pyCommaNat n.natAbs else pyCommaNat n.natAbs

mutual
/-- Embeds Python `repr()` on the modelled values (string escaping inside
container renderings is simplified to plain quoting, which is enough for the
strings this pipeline produces). -/
def pyRepr : PyVal → String
  | .none => "None"
  | .bool true => "True"
  | .bool false => "False"
  | .int n => toString n
  | .str s => "'" ++ s ++ "'"
  | .list xs => "[" ++ pyReprList xs ++ "]"
  | .dict kvs => "\x7b" ++ pyReprDict kvs ++ "\x7d"

/-- Renders the comma-separated items of a Python list repr. -/
def pyReprList : List PyVal → String
  | [] => ""
  | [x] => pyRepr x
  | x :: y :: xs => pyRepr x ++ ", " ++ pyReprList (y :: xs)

/-- Renders the comma-separated entries of a Python dict repr. -/
def pyReprDict : List (String × PyVal) → String
  | [] => ""
  | [(k, v)] => "'" ++ k ++ "': " ++ pyRepr v
  | (k, v) :: y :: xs => "'" ++ k ++ "': " ++ pyRepr v ++ ", " ++ pyReprDict (y :: xs)
end

/-- Embeds Python `str()` as used by f-string interpolation: a string renders
as itself, everything else as its repr. -/
def pyStr (v : PyVal) : String :=
  match v with
  | .str s => s
  | v => pyRepr v

/-- The eleven required `AnalysisResult` fields, in source order
(`document_processor.py` lines 150-155). -/
def required_fields : List String :=
  ["document_summary", "claim_value_estimate", "track_assessment",
   "legal_categories", "claimant_arguments", "defence_points",
   "procedural_considerations", "evidence_strategy",
   "settlement_considerations", "costs_considerations", "urgency_level"]

/-- Embeds `_get_default_value` (lines 186-201): the fixed default for each
required field, with `defaults.get(field, '')` yielding the empty string for
unknown fields. -/
def _get_default_value (field : String) : PyVal :=
  if field = "document_summary" then
    .str "Document analysis could not be completed fully"
  else if field = "claim_value_estimate" then .int 0
  else if field = "track_assessment" then .str "small_claims"
  else if field = "legal_categories" then .list [.str "contract"]
  else if field = "claimant_arguments" then .list []
  else if field = "defence_points" then .list []
  else if field = "procedural_considerations" then
    .list [.str "Review all relevant deadlines and procedural requirements"]
  else if field = "evidence_strategy" then
    .list [.str "Gather all relevant documents and witness statements"]
  else if field = "settlement_considerations" then
    .str "Consider settlement prospects based on strength of case"
  else if field = "costs_considerations" then
    .str "Assess costs implications and Part 36 offer strategy"
  else if field = "urgency_level" then .str "medium"
  else .str ""

/-- First pass of `_validate_analysis_result` (lines 157-159): every required
field absent from the mapping is filled with its fixed default, in field order. -/
def fillDefaults (analysis : Assoc) : Assoc :=
  required_fields.foldl
    (fun acc field =>
      if hasKey acc field then acc else setKey acc field (_get_default_value field))
    analysis

/-- The claim-value normalization of `_validate_analysis_result`
(lines 161-171).  Strings yield the integer value of their first digit run
(0 when no digit occurs); Python `int()` of an int is itself and of a bool is
0 or 1; `None`, `[]` and an empty dict are falsy and yield 0 before `int()`
is even called; `int()` of a non-empty list or dict raises, which the bare
`except` turns into 0. -/
def coerceClaimValue : PyVal → Int
  | .str s =>
      match firstDigitRunNat s with
      | some n => (n : Int)
      | Option.none => 0
  | .int n => n
  | .bool b => if b then 1 else 0
  | .none => 0
  | .list _ => 0
  | .dict _ => 0

/-- Second pass of `_validate_analysis_result` (lines 161-171): rewrite
`claim_value_estimate` with its coerced integer value. -/
def claimStep (analysis : Assoc) : Assoc :=
  setKey analysis "claim_value_estimate"
    (.int (coerceClaimValue ((lookupKey analysis "claim_value_estimate").getD (.int 0))))

/-- The three valid track enum members (line 174). -/
def valid_tracks : List String :=
  ["small_claims", "fast_track", "multi_track"]

/-- Embeds `analysis.get('track_assessment') in valid_tracks`: only a string
equal to one of the three members passes (Python `in` on a list of strings is
false for any non-string value). -/
def isValidTrackVal : Option PyVal → Bool
  | some (.str s) => valid_tracks.contains s
  | _ => false

/-- The track recomputation breakpoints (lines 177-182). -/
def trackFor (claim_value : Int) : String :=
  if claim_value ≤ 10000 then "small_claims"
  else if claim_value ≤ 25000 then "fast_track"
  else "multi_track"

/-- Third pass of `_validate_analysis_result` (lines 173-182): an invalid
track value is recomputed from the claim value.  When this pass runs the
claim value is always the integer written by `claimStep`, so the non-integer
match arm is unreachable (in Python a non-integer there would raise out of
the function). -/
def trackStep (analysis : Assoc) : Assoc :=
  if isValidTrackVal (lookupKey analysis "track_assessment") then analysis
  else
    let claim_value : Int :=
      match (lookupKey analysis "claim_value_estimate").getD (.int 0) with
      | .int n => n
      | _ => 0
    setKey analysis "track_assessment" (.str (trackFor claim_value))

/-- Embeds `_validate_analysis_result` (lines 147-184): fill missing required
fields with defaults, normalize the claim value, then repair the track. -/
def _validate_analysis_result (analysis : Assoc) : Assoc :=
  trackStep (claimStep (fillDefaults analysis))

/-- The integer the validator stores under `claim_value_estimate`. -/
def normClaimValue (analysis : Assoc) : Int :=
  coerceClaimValue ((lookupKey (fillDefaults analysis) "claim_value_estimate").getD (.int 0))

/-- Embeds `_generate_fallback_analysis` (lines 203-238): the fixed analysis
returned when the LLM call fails; the document text argument is ignored. -/
def _generate_fallback_analysis (document_text : String) : Assoc :=
  [("document_summary", .str "Claimant's skeleton argument uploaded for analysis"),
   ("claim_value_estimate", .int 0),
   ("track_assessment", .str "small_claims"),
   ("legal_categories", .list [.str "contract"]),
   ("claimant_arguments", .list [.dict
      [("argument", .str "Analysis could not be completed automatically"),
       ("legal_basis", .str "Manual review required"),
       ("strength", .str "moderate")]]),
   ("defence_points", .list [.dict
      [("defence_strategy", .str "Comprehensive document review required - please consult with a solicitor for detailed analysis"),
       ("legal_basis", .str "General civil procedure rules"),
       ("evidence_required", .str "All relevant case documents and evidence"),
       ("strength", .str "moderate"),
       ("track", .str "all_tracks")]]),
   ("procedural_considerations", .list
      [.str "Review all deadlines and filing requirements",
       .str "Consider whether additional time is needed for defence preparation"]),
   ("evidence_strategy", .list
      [.str "Compile all relevant documents",
       .str "Identify potential witnesses",
       .str "Consider expert evidence requirements"]),
   ("settlement_considerations", .str "Manual review required to assess settlement prospects"),
   ("costs_considerations", .str "Consider costs implications and seek legal advice"),
   ("urgency_level", .str "high")]

/-- Failure modes of the external LLM analysis step: network failure,
a non-JSON reply, a JSON parse error, or any other client-side exception. -/
inductive AnalysisError where
  | networkError
  | nonJsonResponse
  | parseError
  | clientException

/-- Embeds `analyze_skeleton_argument` (lines 73-145).  The external call,
the JSON parse of its reply and the prompt construction are summarized by the
`llm` argument: the parsed mapping on success, an `AnalysisError` otherwise.
The surrounding `try`/`except` validates a successful reply and substitutes
the fallback analysis on any failure. -/
def analyze_skeleton_argument (document_text : String)
    (llm : Except AnalysisError Assoc) : Assoc :=
  match llm with
  | .ok analysis_result => _validate_analysis_result analysis_result
  | .error _ => _generate_fallback_analysis document_text

/-- An uploaded byte sequence, seen through the three external readers the
source delegates to: the page texts `PyPDF2` would extract (`Option.none`
when the reader fails), the paragraph texts `python-docx` would extract, and
the UTF-8 decoding of the bytes. -/
structure FileBytes where
  pdfPages : Option (List String)
  docxParas : Option (List String)
  utf8Text : Option String

/-- Embeds `_extract_from_pdf` (lines 43-56): page texts are concatenated
each followed by a newline and the result is stripped; a reader failure
becomes the fixed `ValueError` message. -/
def _extract_from_pdf (file_content : FileBytes) : Except String String :=
  match file_content.pdfPages with
  | some pages => .ok (pyStrip (String.join (pages.map (fun page => page ++ "\n"))))
  | Option.none => .error "Could not extract text from PDF file"

/-- Embeds `_extract_from_docx` (lines 58-71). -/
def _extract_from_docx (file_content : FileBytes) : Except String String :=
  match file_content.docxParas with
  | some paras => .ok (pyStrip (String.join (paras.map (fun para => para ++ "\n"))))
  | Option.none => .error "Could not extract text from Word document"

/-- Characters of Python `s.split('.')`. -/
def splitOnDot : List Char → List (List Char)
  | [] => [[]]
  | c :: cs =>
      let rest := splitOnDot cs
      if c = '.' then [] :: rest
      else
        match rest with
        | [] => [[c]]
        | r :: rs => (c :: r) :: rs

/-- Embeds `filename.lower().split('.')[-1]` (line 28). -/
def fileExtension (filename : String) : String :=
  String.mk ((splitOnDot (filename.data.map Char.toLower)).getLastD [])

/-- Embeds `extract_text_from_file` (lines 25-41): dispatch on the lowercased
filename suffix; `txt` returns the UTF-8 decoding of the bytes directly (a
decode failure re-raises after logging). -/
def extract_text_from_file (file_content : FileBytes) (filename : String) :
    Except String String :=
  let file_extension := fileExtension filename
  if file_extension = "pdf" then _extract_from_pdf file_content
  else if file_extension = "doc" ∨ file_extension = "docx" then
    _extract_from_docx file_content
  else if file_extension = "txt" then
    match file_content.utf8Text with
    | some text => .ok text
    | Option.none => .error "UnicodeDecodeError"
  else .error ("Unsupported file type: " ++ file_extension)

/-- Embeds `format(value, ',')` for the f-string field `£{claim_value:,}`
(line 260): succeeds on ints and on bools (which are ints in Python), raises
`ValueError`/`TypeError` on anything else. -/
def fmtComma : PyVal → Except Unit String
  | .int n => .ok (pyCommaInt n)
  | .bool b => .ok (if b then "1" else "0")
  | _ => .error ()

/-- The track label table of `format_defence_response` (lines 247-251). -/
def track_info : List (String × String) :=
  [("small_claims", "Small Claims Track (up to £10,000)"),
   ("fast_track", "Fast Track (£10,000-£25,000)"),
   ("multi_track", "Multi-Track (£25,000+)")]

/-- Embeds `track_info.get(track_type, track_type)` interpolated by the
f-string (line 261): unhashable values (lists, dicts) raise `TypeError`;
other values fall through to the default and render via `str()`. -/
def trackLabel : PyVal → Except Unit String
  | .str s => .ok ((List.lookup s track_info).getD s)
  | .list _ => .error ()
  | .dict _ => .error ()
  | v => .ok (pyStr v)

/-- Embeds `', '.join(...)` over list elements: every element must be a
string or Python raises `TypeError`. -/
def joinStrs : List PyVal → Except Unit (List String)
  | [] => .ok []
  | .str s :: rest => (joinStrs rest).map (fun r => s :: r)
  | _ => .error ()

/-- Embeds `', '.join(value)` (line 262): a list joins its elements, a string
its characters, a dict its keys; anything else raises. -/
def pyJoinComma : PyVal → Except Unit String
  | .list xs => (joinStrs xs).map (String.intercalate ", ")
  | .str s => .ok (String.intercalate ", " (s.data.map (fun c => String.mk [c])))
  | .dict kvs => .ok (String.intercalate ", " (kvs.map Prod.fst))
  | _ => .error ()

/-- Embeds `value.title()`: only strings have `.title`, anything else raises
`AttributeError`. -/
def pyTitleOf : PyVal → Except Unit String
  | .str s => .ok (pyTitle s)
  | _ => .error ()

/-- Embeds Python iteration (`for x in value`, `enumerate(value)`): lists
yield their elements, strings their characters, dicts their keys; ints,
bools and `None` raise `TypeError`. -/
def pyIter : PyVal → Except Unit (List PyVal)
  | .list xs => .ok xs
  | .str s => .ok (s.data.map (fun c => .str (String.mk [c])))
  | .dict kvs => .ok (kvs.map (fun kv => .str kv.fst))
  | _ => .error ()

/-- Embeds `value.get(key, default)`: only dicts have `.get`, anything else
raises `AttributeError`. -/
def pyGet : PyVal → String → PyVal → Except Unit PyVal
  | .dict d, k, dflt => .ok ((lookupKey d k).getD dflt)
  | _, _, _ => .error ()

/-- One iteration of the claimant-arguments loop of `format_defence_response`
(lines 268-273). -/
def renderClaimantArg (i : Nat) (arg : PyVal) : Except Unit String := do
  let argument ← pyGet arg "argument" (.str "")
  let legal_basis ← pyGet arg "legal_basis" (.str "")
  let strength ← pyTitleOf (← pyGet arg "strength" (.str "moderate"))
  .ok ("\n### " ++ toString i ++ ". " ++ pyStr argument ++
       "\n- **Legal Basis:** " ++ pyStr legal_basis ++
       "\n- **Strength Assessment:** " ++ strength ++ "\n")

/-- The claimant-arguments loop, numbering from `i`. -/
def renderClaimantArgs : Nat → List PyVal → Except Unit String
  | _, [] => .ok ""
  | i, arg :: rest => do
      let s ← renderClaimantArg i arg
      let r ← renderClaimantArgs (i + 1) rest
      .ok (s ++ r)

/-- One iteration of the defence-points loop (lines 277-284). -/
def renderDefencePoint (i : Nat) (defence : PyVal) : Except Unit String := do
  let strategy ← pyGet defence "defence_strategy" (.str "")
  let legal_basis ← pyGet defence "legal_basis" (.str "")
  let evidence ← pyGet defence "evidence_required" (.str "")
  let strength ← pyTitleOf (← pyGet defence "strength" (.str "moderate"))
  let track ← pyTitleOf (← pyGet defence "track" (.str "all"))
  .ok ("\n### " ++ toString i ++ ". " ++ pyStr strategy ++
       "\n- **Legal Basis:** " ++ pyStr legal_basis ++
       "\n- **Evidence Required:** " ++ pyStr evidence ++
       "\n- **Strength:** " ++ strength ++
       "\n- **Relevant Track:** " ++ track ++ "\n")

/-- The defence-points loop, numbering from `i`. -/
def renderDefencePoints : Nat → List PyVal → Except Unit String
  | _, [] => .ok ""
  | i, defence :: rest => do
      let s ← renderDefencePoint i defence
      let r ← renderDefencePoints (i + 1) rest
      .ok (s ++ r)

/-- Embeds the bullet-list loops (lines 287-288 and 291-292):
`response += f"- \x7bitem\x7d\n"` for each item of the iterated value. -/
def renderBullets (v : PyVal) : Except Unit String :=
  (pyIter v).map (fun items => String.join (items.map (fun c => "- " ++ pyStr c ++ "\n")))

/-- Body of the `try` block of `format_defence_response` (lines 242-304):
builds the Markdown report, propagating any of the dynamic-type errors
Python would raise along the way. -/
def formatBody (analysis : Assoc) : Except Unit String := do
  let claim_value := (lookupKey analysis "claim_value_estimate").getD (.int 0)
  let track_type := (lookupKey analysis "track_assessment").getD (.str "small_claims")
  let claimValueStr ← fmtComma claim_value
  let trackStr ← trackLabel track_type
  let categories ← pyJoinComma ((lookupKey analysis "legal_categories").getD (.list []))
  let urgency ← pyTitleOf ((lookupKey analysis "urgency_level").getD (.str "medium"))
  let argItems ← pyIter ((lookupKey analysis "claimant_arguments").getD (.list []))
  let argsSection ← renderClaimantArgs 1 argItems
  let defItems ← pyIter ((lookupKey analysis "defence_points").getD (.list []))
  let defsSection ← renderDefencePoints 1 defItems
  let procSection ← renderBullets ((lookupKey analysis "procedural_considerations").getD (.list []))
  let evidSection ← renderBullets ((lookupKey analysis "evidence_strategy").getD (.list []))
  let response :=
    "\n# 🛡️ Defence Strategy Analysis\n\n## Document Summary\n" ++
    pyStr ((lookupKey analysis "document_summary").getD (.str "")) ++
    "\n\n## Case Assessment\n- **Estimated Claim Value:** £" ++ claimValueStr ++
    "\n- **Appropriate Track:** " ++ trackStr ++
    "\n- **Legal Categories:** " ++ categories ++
    "\n- **Urgency Level:** " ++ urgency ++
    "\n\n## Claimant's Key Arguments\n" ++ argsSection ++
    "\n## 🎯 Recommended Defence Points\n" ++ defsSection ++
    "\n## ⚖️ Procedural Considerations\n" ++ procSection ++
    "\n## 📋 Evidence Strategy\n" ++ evidSection ++
    "\n## 💰 Settlement & Costs\n**Settlement Considerations:** " ++
    pyStr ((lookupKey analysis "settlement_considerations").getD (.str "")) ++
    "\n\n**Costs Considerations:** " ++
    pyStr ((lookupKey analysis "costs_considerations").getD (.str "")) ++
    "\n\n---\n**⚠️ Legal Disclaimer:** This analysis is for informational purposes only and does not constitute legal advice. Always consult with a qualified solicitor for case-specific guidance.\n"
  .ok (pyStrip response)

/-- Embeds `format_defence_response` (lines 240-308): the rendered report,
or the fixed apologetic message when the `try` body raises. -/
def format_defence_response (analysis : Assoc) : String :=
  match formatBody analysis with
  | .ok response => response
  | .error _ => "Error formatting defence analysis. Please try uploading the document again."

/-- Spec §3: the value is a string. -/
def isStrVal : PyVal → Bool
  | .str _ => true
  | _ => false

/-- Spec §3: the value is a list of strings. -/
def isStrListVal : PyVal → Bool
  | .list xs => xs.all isStrVal
  | _ => false

/-- Spec §3: the value is a non-negative integer. -/
def isNonnegIntVal : PyVal → Bool
  | .int n => decide (0 ≤ n)
  | _ => false

/-- The dict has a string value under the key. -/
def dictStrField (d : Assoc) (k : String) : Bool :=
  match lookupKey d k with
  | some (.str _) => true
  | _ => false

/-- The dict has, under the key, a string belonging to the allowed members. -/
def dictEnumField (d : Assoc) (k : String) (allowed : List String) : Bool :=
  match lookupKey d k with
  | some (.str s) => allowed.contains s
  | _ => false

/-- Spec §3: a claimant-argument entry is a dict with string `argument` and
`legal_basis` and a `strength` in the strength enum. -/
def isClaimantArgVal : PyVal → Bool
  | .dict d =>
      dictStrField d "argument" && dictStrField d "legal_basis" &&
      dictEnumField d "strength" ["weak", "moderate", "strong"]
  | _ => false

/-- Spec §3: a defence-point entry is a dict with string `defence_strategy`,
`legal_basis`, `evidence_required` and `track` and a `strength` in the
strength enum. -/
def isDefencePointVal : PyVal → Bool
  | .dict d =>
      dictStrField d "defence_strategy" && dictStrField d "legal_basis" &&
      dictStrField d "evidence_required" &&
      dictEnumField d "strength" ["weak", "moderate", "strong"] &&
      dictStrField d "track"
  | _ => false

/-- The mapping has, under the key, a value passing the given check. -/
def checkField (a : Assoc) (k : String) (p : PyVal → Bool) : Bool :=
  match lookupKey a k with
  | some v => p v
  | Option.none => false

/-- Spec §3: the value is a list whose entries are claimant-argument dicts. -/
def isClaimantArgsVal : PyVal → Bool
  | .list xs => xs.all isClaimantArgVal
  | _ => false

/-- Spec §3: the value is a list whose entries are defence-point dicts. -/
def isDefencePointsVal : PyVal → Bool
  | .list xs => xs.all isDefencePointVal
  | _ => false

/-- Spec §3: the value is a member of the urgency enum. -/
def isUrgencyVal : PyVal → Bool
  | .str s => s = "low" ∨ s = "medium" ∨ s = "high"
  | _ => false

/-- Spec §3: the value is a member of the track enum. -/
def isTrackEnumVal (v : PyVal) : Bool :=
  isValidTrackVal (some v)

/-- Modelled from the spec (§3 data model): a fully conformant
`AnalysisResult` — all eleven required fields present with their stated
types and enum constraints. -/
def isValidAnalysisResult (a : Assoc) : Bool :=
  checkField a "document_summary" isStrVal &&
  checkField a "claim_value_estimate" isNonnegIntVal &&
  checkField a "track_assessment" isTrackEnumVal &&
  checkField a "legal_categories" isStrListVal &&
  checkField a "claimant_arguments" isClaimantArgsVal &&
  checkField a "defence_points" isDefencePointsVal &&
  checkField a "procedural_considerations" isStrListVal &&
  checkField a "evidence_strategy" isStrListVal &&
  checkField a "settlement_considerations" isStrVal &&
  checkField a "costs_considerations" isStrVal &&
  checkField a "urgency_level" isUrgencyVal

/-- The mapping has all eleven required `AnalysisResult` fields. -/
def hasAllRequired (a : Assoc) : Bool :=
  required_fields.all (fun field => hasKey a field)

/-- The string has no leading and no trailing whitespace. -/
def isStrippedStr (s : String) : Bool :=
  (s.data.head?.all (fun c => !c.isWhitespace)) &&
  (s.data.getLast?.all (fun c => !c.isWhitespace))

theorem lookupKey_setKey_self (a : Assoc) (k : String) (v : PyVal) :
    lookupKey (setKey a k v) k = some v := by
  induction a with
  | nil => simp [setKey, lookupKey]
  | cons kv rest ih =>
      obtain ⟨k', v'⟩ := kv
      by_cases h : k' = k
      · simp [setKey, lookupKey, h]
      · simp [setKey, lookupKey, h, ih]

theorem lookupKey_setKey_ne (a : Assoc) (k : String) (v : PyVal) (k' : String)
    (h : k' ≠ k) : lookupKey (setKey a k v) k' = lookupKey a k' := by
  have hks : ¬ k = k' := fun hk => h hk.symm
  induction a with
  | nil => simp [setKey, lookupKey, hks]
  | cons kv rest ih =>
      obtain ⟨k₀, v₀⟩ := kv
      by_cases h₀ : k₀ = k
      · subst h₀
        simp [setKey, lookupKey, hks]
      · simp [setKey, lookupKey, h₀, ih]

theorem setKey_lookup_eq (a : Assoc) (k : String) (v : PyVal)
    (h : lookupKey a k = some v) : setKey a k v = a := by
  induction a with
  | nil => simp [lookupKey] at h
  | cons kv rest ih =>
      obtain ⟨k₀, v₀⟩ := kv
      by_cases h₀ : k₀ = k
      · simp [lookupKey, h₀] at h
        simp [setKey, h₀, h]
      · simp [lookupKey, h₀] at h
        simp [setKey, h₀, ih h]

theorem hasKey_setKey_self (a : Assoc) (k : String) (v : PyVal) :
    hasKey (setKey a k v) k = true := by
  simp [hasKey, lookupKey_setKey_self]

theorem hasKey_setKey_of (a : Assoc) (k : String) (v : PyVal) (k' : String)
    (h : hasKey a k' = true) : hasKey (setKey a k v) k' = true := by
  by_cases hk : k' = k
  · subst hk; exact hasKey_setKey_self a k' v
  · rw [hasKey, lookupKey_setKey_ne a k v k' hk]; exact h

theorem hasKey_exists (a : Assoc) (k : String) (h : hasKey a k = true) :
    ∃ v, lookupKey a k = some v := by
  rw [hasKey, Option.isSome_iff_exists] at h
  exact h

theorem fill_lookup_preserve (fs : List String) (a : Assoc) (k : String) (v : PyVal)
    (h : lookupKey a k = some v) :
    lookupKey
      (fs.foldl
        (fun acc field =>
          if hasKey acc field then acc else setKey acc field (_get_default_value field)) a)
      k = some v := by
  induction fs generalizing a with
  | nil => simpa using h
  | cons f fs ih =>
      rw [List.foldl_cons]
      apply ih
      by_cases hf : hasKey a f = true
      · rw [if_pos hf]; exact h
      · have hkf : k ≠ f := by
          intro hkf
          rw [hkf] at h
          rw [hasKey, h] at hf
          simp at hf
        rw [if_neg hf, lookupKey_setKey_ne a f _ k hkf]
        exact h

theorem fill_hasKey_preserve (fs : List String) (a : Assoc) (k : String)
    (h : hasKey a k = true) :
    hasKey
      (fs.foldl
        (fun acc field =>
          if hasKey acc field then acc else setKey acc field (_get_default_value field)) a)
      k = true := by
  obtain ⟨v, hv⟩ := hasKey_exists a k h
  rw [hasKey, fill_lookup_preserve fs a k v hv]
  rfl

theorem fill_hasKey_mem (fs : List String) (a : Assoc) (k : String)
    (h : k ∈ fs) :
    hasKey
      (fs.foldl
        (fun acc field =>
          if hasKey acc field then acc else setKey acc field (_get_default_value field)) a)
      k = true := by
  induction fs generalizing a with
  | nil => simp at h
  | cons f fs ih =>
      rw [List.foldl_cons]
      rcases List.mem_cons.mp h with hk | hk
      · subst hk
        apply fill_hasKey_preserve
        by_cases hf : hasKey a k = true
        · rw [if_pos hf]; exact hf
        · rw [if_neg hf]
          exact hasKey_setKey_self a k _
      · exact ih _ hk

theorem fill_lookup_absent (fs : List String) (a : Assoc) (k : String)
    (hmem : k ∈ fs) (habs : hasKey a k = false) :
    lookupKey
      (fs.foldl
        (fun acc field =>
          if hasKey acc field then acc else setKey acc field (_get_default_value field)) a)
      k = some (_get_default_value k) := by
  induction fs generalizing a with
  | nil => simp at hmem
  | cons f fs ih =>
      rw [List.foldl_cons]
      by_cases hk : k = f
      · subst hk
        rw [habs, if_neg (by simp)]
        exact fill_lookup_preserve fs _ k _ (lookupKey_setKey_self a k _)
      · have hk' : k ∈ fs := by
          rcases List.mem_cons.mp hmem with h | h
          · exact absurd h hk
          · exact h
        by_cases hf : hasKey a f = true
        · rw [if_pos hf]
          exact ih a hk' habs
        · rw [if_neg hf]
          apply ih _ hk'
          rw [hasKey, lookupKey_setKey_ne a f _ k hk]
          exact habs

theorem fill_all_nop (fs : List String) (a : Assoc)
    (h : ∀ f ∈ fs, hasKey a f = true) :
    fs.foldl
      (fun acc field =>
        if hasKey acc field then acc else setKey acc field (_get_default_value field)) a = a := by
  induction fs with
  | nil => rfl
  | cons f fs ih =>
      rw [List.foldl_cons, if_pos (h f (List.mem_cons_self f fs))]
      exact ih fun g hg => h g (List.mem_cons_of_mem f hg)

theorem lookupKey_claimStep_ne (a : Assoc) (k : String)
    (h : k ≠ "claim_value_estimate") :
    lookupKey (claimStep a) k = lookupKey a k :=
  lookupKey_setKey_ne a _ _ k h

theorem lookupKey_claimStep_self (a : Assoc) :
    lookupKey (claimStep a) "claim_value_estimate" =
      some (.int (coerceClaimValue ((lookupKey a "claim_value_estimate").getD (.int 0)))) :=
  lookupKey_setKey_self a _ _

theorem lookupKey_trackStep_ne (a : Assoc) (k : String)
    (h : k ≠ "track_assessment") :
    lookupKey (trackStep a) k = lookupKey a k := by
  rw [trackStep]
  split
  · rfl
  · exact lookupKey_setKey_ne a _ _ k h

theorem hasKey_claimStep_of (a : Assoc) (k : String) (h : hasKey a k = true) :
    hasKey (claimStep a) k = true :=
  hasKey_setKey_of a _ _ k h

theorem hasKey_trackStep_of (a : Assoc) (k : String) (h : hasKey a k = true) :
    hasKey (trackStep a) k = true := by
  rw [trackStep]
  split
  · exact h
  · exact hasKey_setKey_of a _ _ k h

theorem validate_hasAll (a : Assoc) :
    hasAllRequired (_validate_analysis_result a) = true := by
  rw [hasAllRequired, List.all_eq_true]
  intro f hf
  apply hasKey_trackStep_of
  apply hasKey_claimStep_of
  exact fill_hasKey_mem required_fields a f hf

theorem validate_claim_int (a : Assoc) :
    lookupKey (_validate_analysis_result a) "claim_value_estimate" =
      some (.int (normClaimValue a)) := by
  rw [_validate_analysis_result,
    lookupKey_trackStep_ne _ _ (by decide),
    lookupKey_claimStep_self, normClaimValue, fillDefaults]

theorem trackFor_mem (v : Int) : valid_tracks.contains (trackFor v) = true := by
  rw [trackFor]
  split
  · rfl
  · split <;> rfl

theorem validate_track_valid (a : Assoc) :
    isValidTrackVal (lookupKey (_validate_analysis_result a) "track_assessment") = true := by
  rw [_validate_analysis_result, trackStep]
  split
  · assumption
  · rw [lookupKey_setKey_self]
    simpa [isValidTrackVal] using trackFor_mem _

theorem validate_eq_self (a : Assoc)
    (h1 : hasAllRequired a = true)
    (h2 : ∃ n : Int, lookupKey a "claim_value_estimate" = some (.int n))
    (h3 : isValidTrackVal (lookupKey a "track_assessment") = true) :
    _validate_analysis_result a = a := by
  obtain ⟨n, hn⟩ := h2
  rw [hasAllRequired, List.all_eq_true] at h1
  have hfill : fillDefaults a = a := fill_all_nop required_fields a h1
  have hclaim : claimStep a = a := by
    rw [claimStep, hn]
    exact setKey_lookup_eq a _ _ hn
  rw [_validate_analysis_result, fillDefaults] at *
  rw [hfill, hclaim, trackStep, if_pos h3]

theorem validate_idem (a : Assoc) :
    _validate_analysis_result (_validate_analysis_result a) = _validate_analysis_result a :=
  validate_eq_self _ (validate_hasAll a)
    ⟨normClaimValue a, validate_claim_int a⟩ (validate_track_valid a)

theorem head?_dropWhile_not (p : Char → Bool) (l : List Char) (c : Char)
    (h : (l.dropWhile p).head? = some c) : p c = false := by
  induction l with
  | nil => simp [List.dropWhile] at h
  | cons x xs ih =>
      by_cases hx : p x = true
      · rw [List.dropWhile_cons, if_pos hx] at h
        exact ih h
      · rw [List.dropWhile_cons, if_neg hx] at h
        simp at h
        rw [← h]
        simpa using hx

theorem getLast?_dropWhile (p : Char → Bool) (l : List Char)
    (h : l.dropWhile p ≠ []) : (l.dropWhile p).getLast? = l.getLast? := by
  induction l with
  | nil => simp [List.dropWhile] at h
  | cons x xs ih =>
      by_cases hx : p x = true
      · rw [List.dropWhile_cons, if_pos hx] at h ⊢
        rw [ih h]
        have hxs : xs ≠ [] := by
          intro he
          rw [he] at h
          simp [List.dropWhile] at h
        obtain ⟨y, ys, rfl⟩ := List.exists_cons_of_ne_nil hxs
        exact (List.getLast?_cons_cons).symm
      · rw [List.dropWhile_cons, if_neg hx]

theorem stripChars_last (l : List Char) (c : Char)
    (h : (stripChars l).getLast? = some c) : c.isWhitespace = false := by
  rw [stripChars, List.getLast?_reverse] at h
  exact head?_dropWhile_not _ _ _ h

theorem stripChars_head (l : List Char) (c : Char)
    (h : (stripChars l).head? = some c) : c.isWhitespace = false := by
  rw [stripChars, List.head?_reverse] at h
  have hne : (l.dropWhile Char.isWhitespace).reverse.dropWhile Char.isWhitespace ≠ [] := by
    intro he
    rw [he] at h
    simp at h
  rw [getLast?_dropWhile _ _ hne, List.getLast?_reverse] at h
  exact head?_dropWhile_not _ _ _ h

theorem isStrippedStr_pyStrip (s : String) : isStrippedStr (pyStrip s) = true := by
  rw [isStrippedStr, pyStrip]
  have hd : (String.mk (stripChars s.data)).data = stripChars s.data := rfl
  rw [hd, Bool.and_eq_true]
  constructor
  · cases hh : (stripChars s.data).head? with
    | none => rfl
    | some c => simp [stripChars_head _ _ hh]
  · cases hh : (stripChars s.data).getLast? with
    | none => rfl
    | some c => simp [stripChars_last _ _ hh]

theorem firstDigitRun_spec (l r : List Char) (h : firstDigitRun l = some r) :
    ∃ pre rest, l = pre ++ r ++ rest ∧ pre.all (fun c => !c.isDigit) = true ∧
      r ≠ [] ∧ r.all Char.isDigit = true ∧
      rest.head?.all (fun c => !c.isDigit) = true := by
  induction l with
  | nil => simp [firstDigitRun] at h
  | cons c cs ih =>
      by_cases hc : c.isDigit = true
      · rw [firstDigitRun, if_pos hc] at h
        obtain rfl : c :: cs.takeWhile Char.isDigit = r := by
          simpa using h
        refine ⟨[], cs.dropWhile Char.isDigit, ?_, rfl, by simp, ?_, ?_⟩
        · simp [List.takeWhile_append_dropWhile Char.isDigit cs]
        · rw [List.all_eq_true]
          intro x hx
          rcases List.mem_cons.mp hx with hx | hx
          · rw [hx]; exact hc
          · exact List.mem_takeWhile_imp hx
        · cases hh : (cs.dropWhile Char.isDigit).head? with
          | none => rfl
          | some d => simp [head?_dropWhile_not _ _ _ hh]
      · rw [firstDigitRun, if_neg hc] at h
        obtain ⟨pre, rest, hl, hpre, hr, hall, hrest⟩ := ih h
        refine ⟨c :: pre, rest, by simp [hl], ?_, hr, hall, hrest⟩
        simp only [List.all_cons, hpre, Bool.and_true]
        simp [hc]

theorem coerceClaimValue_neg (v : PyVal) (h : coerceClaimValue v < 0) :
    v = .int (coerceClaimValue v) := by
  cases v with
  | int n => rfl
  | str s =>
      rw [coerceClaimValue] at h
      cases hf : firstDigitRunNat s with
      | none => rw [hf] at h; simp at h
      | some n =>
          rw [hf] at h
          exact absurd h (by simpa using Int.natCast_nonneg n)
  | bool b =>
      rw [coerceClaimValue] at h
      cases b <;> simp at h
  | none => rw [coerceClaimValue] at h; simp at h
  | list xs => rw [coerceClaimValue] at h; simp at h
  | dict kvs => rw [coerceClaimValue] at h; simp at h

theorem exceptBind_ok {ε α β : Type} (a : α) (f : α → Except ε β) :
    (Except.ok a : Except ε α) >>= f = f a := rfl

/-- The `Except` value is a success. -/
def exOk {ε α : Type} : Except ε α → Bool
  | .ok _ => true
  | .error _ => false

theorem exOk_exists {ε α : Type} (e : Except ε α) (h : exOk e = true) :
    ∃ a, e = Except.ok a := by
  cases e with
  | error _ => simp [exOk] at h
  | ok a => exact ⟨a, rfl⟩

theorem exceptMap_ok {ε α β : Type} (a : α) (f : α → β) :
    (Except.ok a : Except ε α).map f = Except.ok (f a) := rfl

theorem isStrVal_exists (v : PyVal) (h : isStrVal v = true) :
    ∃ s, v = PyVal.str s := by
  cases v <;> simp [isStrVal] at h
  exact ⟨_, rfl⟩

theorem isNonnegIntVal_exists (v : PyVal) (h : isNonnegIntVal v = true) :
    ∃ n : Int, 0 ≤ n ∧ v = PyVal.int n := by
  cases v <;> simp [isNonnegIntVal] at h
  exact ⟨_, h, rfl⟩

theorem isStrListVal_exists (v : PyVal) (h : isStrListVal v = true) :
    ∃ xs, v = PyVal.list xs ∧ xs.all isStrVal = true := by
  cases v <;> simp [isStrListVal] at h <;> try exact ⟨_, rfl, by simp [List.all_eq_true]; exact h⟩

theorem isTrackEnumVal_exists (v : PyVal) (h : isTrackEnumVal v = true) :
    ∃ s, v = PyVal.str s ∧ valid_tracks.contains s = true := by
  cases v <;> simp [isTrackEnumVal, isValidTrackVal] at h
  exact ⟨_, rfl, by simpa using h⟩

theorem isUrgencyVal_exists (v : PyVal) (h : isUrgencyVal v = true) :
    ∃ s, v = PyVal.str s := by
  cases v <;> simp [isUrgencyVal] at h
  exact ⟨_, rfl⟩

theorem isClaimantArgsVal_exists (v : PyVal) (h : isClaimantArgsVal v = true) :
    ∃ xs, v = PyVal.list xs ∧ xs.all isClaimantArgVal = true := by
  cases v <;> simp [isClaimantArgsVal] at h <;>
    try exact ⟨_, rfl, by simp [List.all_eq_true]; exact h⟩

theorem isDefencePointsVal_exists (v : PyVal) (h : isDefencePointsVal v = true) :
    ∃ xs, v = PyVal.list xs ∧ xs.all isDefencePointVal = true := by
  cases v <;> simp [isDefencePointsVal] at h <;>
    try exact ⟨_, rfl, by simp [List.all_eq_true]; exact h⟩

theorem checkField_exists (a : Assoc) (k : String) (p : PyVal → Bool)
    (h : checkField a k p = true) :
    ∃ v, lookupKey a k = some v ∧ p v = true := by
  rw [checkField] at h
  cases hl : lookupKey a k with
  | none => rw [hl] at h; exact absurd h (by simp)
  | some v => rw [hl] at h; exact ⟨v, rfl, h⟩

theorem joinStrs_ok (xs : List PyVal) (h : xs.all isStrVal = true) :
    ∃ ss, joinStrs xs = Except.ok ss := by
  induction xs with
  | nil => exact ⟨[], rfl⟩
  | cons x xs ih =>
      rw [List.all_cons, Bool.and_eq_true] at h
      obtain ⟨hx, hxs⟩ := h
      obtain ⟨s, rfl⟩ := isStrVal_exists x hx
      obtain ⟨ss, hss⟩ := ih hxs
      exact ⟨s :: ss, by rw [joinStrs, hss]; rfl⟩

theorem renderClaimantArg_ok (i : Nat) (arg : PyVal)
    (h : isClaimantArgVal arg = true) :
    ∃ s, renderClaimantArg i arg = Except.ok s := by
  obtain ⟨d, rfl⟩ : ∃ d, arg = PyVal.dict d := by
    cases arg <;> simp [isClaimantArgVal] at h
    exact ⟨_, rfl⟩
  rw [isClaimantArgVal, Bool.and_eq_true, Bool.and_eq_true] at h
  obtain ⟨⟨_, _⟩, h3⟩ := h
  obtain ⟨st, hst⟩ : ∃ st, lookupKey d "strength" = some (PyVal.str st) := by
    rw [dictEnumField] at h3
    cases hl : lookupKey d "strength" with
    | none => rw [hl] at h3; simp at h3
    | some v =>
        rw [hl] at h3
        cases v <;> simp at h3
        exact ⟨_, rfl⟩
  apply exOk_exists
  simp only [renderClaimantArg, pyGet, hst, exceptBind_ok, Option.getD_some, pyTitleOf, exOk]

theorem renderClaimantArgs_ok (xs : List PyVal) (i : Nat)
    (h : xs.all isClaimantArgVal = true) :
    ∃ s, renderClaimantArgs i xs = Except.ok s := by
  induction xs generalizing i with
  | nil => exact ⟨"", rfl⟩
  | cons x xs ih =>
      rw [List.all_cons, Bool.and_eq_true] at h
      obtain ⟨s₁, h₁⟩ := renderClaimantArg_ok i x h.1
      obtain ⟨s₂, h₂⟩ := ih (i + 1) h.2
      exact ⟨s₁ ++ s₂, by simp only [renderClaimantArgs, h₁, h₂, exceptBind_ok]⟩

theorem renderDefencePoint_ok (i : Nat) (defence : PyVal)
    (h : isDefencePointVal defence = true) :
    ∃ s, renderDefencePoint i defence = Except.ok s := by
  obtain ⟨d, rfl⟩ : ∃ d, defence = PyVal.dict d := by
    cases defence <;> simp [isDefencePointVal] at h
    exact ⟨_, rfl⟩
  rw [isDefencePointVal, Bool.and_eq_true, Bool.and_eq_true, Bool.and_eq_true,
    Bool.and_eq_true] at h
  obtain ⟨⟨⟨⟨_, _⟩, _⟩, h4⟩, h5⟩ := h
  obtain ⟨st, hst⟩ : ∃ st, lookupKey d "strength" = some (PyVal.str st) := by
    rw [dictEnumField] at h4
    cases hl : lookupKey d "strength" with
    | none => rw [hl] at h4; simp at h4
    | some v =>
        rw [hl] at h4
        cases v <;> simp at h4
        exact ⟨_, rfl⟩
  obtain ⟨tr, htr⟩ : ∃ tr, lookupKey d "track" = some (PyVal.str tr) := by
    rw [dictStrField] at h5
    cases hl : lookupKey d "track" with
    | none => rw [hl] at h5; simp at h5
    | some v =>
        rw [hl] at h5
        cases v <;> simp at h5
        exact ⟨_, rfl⟩
  apply exOk_exists
  simp only [renderDefencePoint, pyGet, hst, htr, exceptBind_ok, Option.getD_some, pyTitleOf,
    exOk]

theorem renderDefencePoints_ok (xs : List PyVal) (i : Nat)
    (h : xs.all isDefencePointVal = true) :
    ∃ s, renderDefencePoints i xs = Except.ok s := by
  induction xs generalizing i with
  | nil => exact ⟨"", rfl⟩
  | cons x xs ih =>
      rw [List.all_cons, Bool.and_eq_true] at h
      obtain ⟨s₁, h₁⟩ := renderDefencePoint_ok i x h.1
      obtain ⟨s₂, h₂⟩ := ih (i + 1) h.2
      exact ⟨s₁ ++ s₂, by simp only [renderDefencePoints, h₁, h₂, exceptBind_ok]⟩

theorem formatBody_valid_ok (a : Assoc) (h : isValidAnalysisResult a = true) :
    ∃ s, formatBody a = Except.ok s := by
  rw [isValidAnalysisResult] at h
  simp only [Bool.and_eq_true] at h
  obtain ⟨⟨⟨⟨⟨⟨⟨⟨⟨⟨hds, hcv⟩, htr⟩, hlc⟩, hca⟩, hdp⟩, hpc⟩, hes⟩, hsc⟩, hcc⟩, hul⟩ := h
  obtain ⟨v1, e1, t1⟩ := checkField_exists _ _ _ hds
  obtain ⟨s1, rfl⟩ := isStrVal_exists _ t1
  obtain ⟨v2, e2, t2⟩ := checkField_exists _ _ _ hcv
  obtain ⟨n2, _, rfl⟩ := isNonnegIntVal_exists _ t2
  obtain ⟨v3, e3, t3⟩ := checkField_exists _ _ _ htr
  obtain ⟨s3, rfl, _⟩ := isTrackEnumVal_exists _ t3
  obtain ⟨v4, e4, t4⟩ := checkField_exists _ _ _ hlc
  obtain ⟨xs4, rfl, hall4⟩ := isStrListVal_exists _ t4
  obtain ⟨v5, e5, t5⟩ := checkField_exists _ _ _ hca
  obtain ⟨xs5, rfl, hall5⟩ := isClaimantArgsVal_exists _ t5
  obtain ⟨v6, e6, t6⟩ := checkField_exists _ _ _ hdp
  obtain ⟨xs6, rfl, hall6⟩ := isDefencePointsVal_exists _ t6
  obtain ⟨v7, e7, t7⟩ := checkField_exists _ _ _ hpc
  obtain ⟨xs7, rfl, _⟩ := isStrListVal_exists _ t7
  obtain ⟨v8, e8, t8⟩ := checkField_exists _ _ _ hes
  obtain ⟨xs8, rfl, _⟩ := isStrListVal_exists _ t8
  obtain ⟨v9, e9, t9⟩ := checkField_exists _ _ _ hsc
  obtain ⟨s9, rfl⟩ := isStrVal_exists _ t9
  obtain ⟨v10, e10, t10⟩ := checkField_exists _ _ _ hcc
  obtain ⟨s10, rfl⟩ := isStrVal_exists _ t10
  obtain ⟨v11, e11, t11⟩ := checkField_exists _ _ _ hul
  obtain ⟨s11, rfl⟩ := isUrgencyVal_exists _ t11
  obtain ⟨ss4, hj4⟩ := joinStrs_ok xs4 hall4
  obtain ⟨sa, ha⟩ := renderClaimantArgs_ok xs5 1 hall5
  obtain ⟨sd, hd⟩ := renderDefencePoints_ok xs6 1 hall6
  apply exOk_exists
  simp only [formatBody, e1, e2, e3, e4, e5, e6, e7, e8, e9, e10, e11,
    Option.getD_some, fmtComma, trackLabel, pyJoinComma, pyTitleOf, pyIter,
    renderBullets, hj4, ha, hd, exceptBind_ok, exceptMap_ok, exOk]

/-- C1 counterexample: on the raw mapping missing ten of the eleven required
fields whose one present field `legal_categories` is `None`, the validator
keeps the `None` value, so a `None` value survives validation and the output
is not fully well-typed — the claim fails as stated. -/
theorem validator_none_survives_counterexample :
    lookupKey (_validate_analysis_result [("legal_categories", PyVal.none)])
        "legal_categories" = some PyVal.none ∧
    isStrListVal PyVal.none = false ∧
    isValidAnalysisResult
      (_validate_analysis_result [("legal_categories", PyVal.none)]) = false :=
  ⟨rfl, rfl, rfl⟩

/-- C1 (amended): for every raw input mapping the validator output contains
all eleven required fields, and each required field absent from the input is
filled with its fixed default (`document_summary` the standard
incomplete-analysis string, list fields empty sequences or a single
placeholder entry, `urgency_level` "medium"); on the all-absent input the
output is fully well-typed.  A required field present in the input with an
ill-typed value (other than the normalized `claim_value_estimate` and
`track_assessment`) keeps that value, so a present `None` can survive. -/
theorem validator_fills_missing_fields (a : Assoc) :
    hasAllRequired (_validate_analysis_result a) = true ∧
    (∀ f, f ∈ required_fields → hasKey a f = false →
      lookupKey (_validate_analysis_result a) f = some (_get_default_value f)) ∧
    isValidAnalysisResult (_validate_analysis_result []) = true := by
  refine ⟨validate_hasAll a, ?_, rfl⟩
  intro f hf habs
  have hfill : lookupKey (fillDefaults a) f = some (_get_default_value f) := by
    rw [fillDefaults]
    exact fill_lookup_absent required_fields a f hf habs
  by_cases hcv : f = "claim_value_estimate"
  · subst hcv
    have h0 : normClaimValue a = 0 := by
      rw [normClaimValue, hfill]
      rfl
    rw [validate_claim_int a, h0]
    rfl
  · by_cases htr : f = "track_assessment"
    · subst htr
      have h2 : lookupKey (claimStep (fillDefaults a)) "track_assessment" =
          some (_get_default_value "track_assessment") := by
        rw [lookupKey_claimStep_ne _ _ (by decide)]
        exact hfill
      have hvalid : isValidTrackVal
          (lookupKey (claimStep (fillDefaults a)) "track_assessment") = true := by
        rw [h2]
        rfl
      rw [_validate_analysis_result, trackStep, if_pos hvalid]
      exact h2
    · rw [_validate_analysis_result, lookupKey_trackStep_ne _ _ htr,
        lookupKey_claimStep_ne _ _ hcv]
      exact hfill

/-- C1 witness: on a mapping holding only `urgency_level`, the validator
fills `document_summary` with its fixed default string. -/
theorem validator_fills_missing_fields_witness :
    lookupKey (_validate_analysis_result [("urgency_level", PyVal.str "low")])
        "document_summary" =
      some (PyVal.str "Document analysis could not be completed fully") :=
  (validator_fills_missing_fields _).2.1 "document_summary" (by decide) rfl

/-- C2: the validator leaves a valid `track_assessment` unchanged and
recomputes an invalid one from the already-normalized claim value, with
breakpoints v ≤ 10000 → small_claims, 10000 < v ≤ 25000 → fast_track,
25000 < v → multi_track; the first conjunct identifies the normalized claim
value actually stored in the output as the value the recomputation reads. -/
theorem track_normalization (a : Assoc) (t : PyVal)
    (hpres : lookupKey a "track_assessment" = some t) :
    lookupKey (_validate_analysis_result a) "claim_value_estimate" =
      some (PyVal.int (normClaimValue a)) ∧
    (isValidTrackVal (some t) = false →
      lookupKey (_validate_analysis_result a) "track_assessment" =
        some (PyVal.str (trackFor (normClaimValue a)))) ∧
    (isValidTrackVal (some t) = true →
      lookupKey (_validate_analysis_result a) "track_assessment" = some t) ∧
    (∀ v : Int, (v ≤ 10000 → trackFor v = "small_claims") ∧
      (10000 < v → v ≤ 25000 → trackFor v = "fast_track") ∧
      (25000 < v → trackFor v = "multi_track")) := by
  have h2 : lookupKey (claimStep (fillDefaults a)) "track_assessment" = some t := by
    rw [lookupKey_claimStep_ne _ _ (by decide), fillDefaults]
    exact fill_lookup_preserve required_fields a _ t hpres
  have hcl : lookupKey (claimStep (fillDefaults a)) "claim_value_estimate" =
      some (PyVal.int (normClaimValue a)) :=
    lookupKey_claimStep_self _
  refine ⟨validate_claim_int a, ?_, ?_, ?_⟩
  · intro hinv
    rw [_validate_analysis_result, trackStep, h2, if_neg (by simp [hinv]), hcl]
    exact lookupKey_setKey_self _ _ _
  · intro hval
    rw [_validate_analysis_result, trackStep, h2, if_pos hval]
    exact h2
  · intro v
    refine ⟨?_, ?_, ?_⟩
    · intro hle
      rw [trackFor, if_pos hle]
    · intro hlt hle
      rw [trackFor, if_neg (by omega), if_pos hle]
    · intro hlt
      rw [trackFor, if_neg (by omega), if_neg (by omega)]

/-- C2 witness: an invalid track "bogus" with string claim value "30000" is
recomputed to multi_track. -/
theorem track_normalization_witness :
    lookupKey (_validate_analysis_result
        [("claim_value_estimate", PyVal.str "30000"),
         ("track_assessment", PyVal.str "bogus")]) "track_assessment" =
      some (PyVal.str "multi_track") :=
  (track_normalization
    [("claim_value_estimate", PyVal.str "30000"),
     ("track_assessment", PyVal.str "bogus")] (PyVal.str "bogus") rfl).2.1 rfl

/-- C3 counterexample: on a string input "£12,500 approx" the validator
stores 12 — the integer parse of the first digit run "12", cut at the comma —
not 12500 as the claim states. -/
theorem claim_value_first_run_counterexample :
    lookupKey (_validate_analysis_result
        [("claim_value_estimate", PyVal.str "£12,500 approx")])
      "claim_value_estimate" = some (PyVal.int 12) ∧
    (12 : Int) ≠ 12500 :=
  ⟨rfl, by decide⟩

/-- C3 (amended): for every string-valued `claim_value_estimate` input the
validator stores the integer parse of the FIRST maximal run of decimal
digits found in the string (so "£12,500 approx" yields 12, not 12500), and 0
when the string contains no digit; the second conjunct characterizes the
extracted run as the first maximal digit run. -/
theorem claim_value_string_extraction (a : Assoc) (s : String)
    (h : lookupKey a "claim_value_estimate" = some (PyVal.str s)) :
    lookupKey (_validate_analysis_result a) "claim_value_estimate" =
      some (PyVal.int (((firstDigitRunNat s).getD 0 : Nat) : Int)) ∧
    (∀ r, firstDigitRun s.data = some r →
      ∃ pre rest, s.data = pre ++ r ++ rest ∧
        pre.all (fun c => !c.isDigit) = true ∧
        r ≠ [] ∧ r.all Char.isDigit = true ∧
        rest.head?.all (fun c => !c.isDigit) = true) ∧
    (firstDigitRunNat s = Option.none →
      lookupKey (_validate_analysis_result a) "claim_value_estimate" =
        some (PyVal.int 0)) := by
  have hf : lookupKey (fillDefaults a) "claim_value_estimate" =
      some (PyVal.str s) := by
    rw [fillDefaults]
    exact fill_lookup_preserve required_fields a _ _ h
  have hkey : normClaimValue a = (((firstDigitRunNat s).getD 0 : Nat) : Int) := by
    rw [normClaimValue, hf]
    cases hr : firstDigitRunNat s with
    | none => simp [coerceClaimValue, hr]
    | some n => simp [coerceClaimValue, hr]
  refine ⟨by rw [validate_claim_int, hkey], fun r hr => firstDigitRun_spec s.data r hr, ?_⟩
  intro hnone
  rw [validate_claim_int, hkey, hnone]
  rfl

/-- C3 witness: string input "£9,999" yields 9 (first digit run). -/
theorem claim_value_string_extraction_witness :
    lookupKey (_validate_analysis_result
        [("claim_value_estimate", PyVal.str "£9,999")]) "claim_value_estimate" =
      some (PyVal.int 9) :=
  (claim_value_string_extraction
    [("claim_value_estimate", PyVal.str "£9,999")] "£9,999" rfl).1

/-- C4 counterexample: the input claim value -5 (a negative integer) survives
coercion unchanged, so the output claim value is a negative integer,
contradicting the claimed `integer ≥ 0` invariant. -/
theorem negative_claim_value_counterexample :
    lookupKey (_validate_analysis_result
        [("claim_value_estimate", PyVal.int (-5))]) "claim_value_estimate" =
      some (PyVal.int (-5)) ∧
    (-5 : Int) < 0 :=
  ⟨rfl, by decide⟩

/-- C4 (amended): for every input mapping the output `claim_value_estimate`
is an integer; it is 0 when the field is absent, and it can be negative only
when the input itself carried that same negative integer (so for string,
falsy, absent or non-negative numeric inputs the output is ≥ 0). -/
theorem claim_value_integer_output (a : Assoc) :
    lookupKey (_validate_analysis_result a) "claim_value_estimate" =
      some (PyVal.int (normClaimValue a)) ∧
    (hasKey a "claim_value_estimate" = false → normClaimValue a = 0) ∧
    (normClaimValue a < 0 →
      lookupKey a "claim_value_estimate" = some (PyVal.int (normClaimValue a))) := by
  have h0 : hasKey a "claim_value_estimate" = false → normClaimValue a = 0 := by
    intro habs
    have h1 : lookupKey (fillDefaults a) "claim_value_estimate" =
        some (_get_default_value "claim_value_estimate") := by
      rw [fillDefaults]
      exact fill_lookup_absent required_fields a _ (by decide) habs
    rw [normClaimValue, h1]
    rfl
  refine ⟨validate_claim_int a, h0, ?_⟩
  intro hneg
  cases hpres : lookupKey a "claim_value_estimate" with
  | none =>
      have habs : hasKey a "claim_value_estimate" = false := by
        rw [hasKey, hpres]
        rfl
      rw [h0 habs] at hneg
      exact absurd hneg (by decide)
  | some w =>
      have hf : lookupKey (fillDefaults a) "claim_value_estimate" = some w := by
        rw [fillDefaults]
        exact fill_lookup_preserve required_fields a _ _ hpres
      have hV : normClaimValue a = coerceClaimValue w := by
        rw [normClaimValue, hf]
        rfl
      have hw := coerceClaimValue_neg w (by rw [← hV]; exact hneg)
      rw [hw, hV]

/-- C4 witness: the negative integer input -7 flows through unchanged,
exercising the negative-input clause of the amended claim. -/
theorem claim_value_integer_output_witness :
    lookupKey ([("claim_value_estimate", PyVal.int (-7))] : Assoc)
        "claim_value_estimate" = some (PyVal.int (-7)) :=
  (claim_value_integer_output [("claim_value_estimate", PyVal.int (-7))]).2.2
    (by decide)

/-- C5: every failure of the external LLM analysis step makes
`analyze_skeleton_argument` return the fallback analysis instead of
propagating the error, and on every outcome (success or failure) the caller
receives a mapping holding all eleven required fields. -/
theorem analysis_failure_falls_back (document_text : String)
    (llm : Except AnalysisError Assoc) :
    (∀ e, llm = Except.error e →
      analyze_skeleton_argument document_text llm =
        _generate_fallback_analysis document_text) ∧
    hasAllRequired (analyze_skeleton_argument document_text llm) = true := by
  cases llm with
  | ok r => exact ⟨fun e he => Except.noConfusion he, validate_hasAll r⟩
  | error e' => exact ⟨fun e he => rfl, rfl⟩

/-- C5 witness: a network error yields exactly the fallback analysis. -/
theorem analysis_failure_falls_back_witness :
    analyze_skeleton_argument "doc" (Except.error AnalysisError.networkError) =
      _generate_fallback_analysis "doc" :=
  (analysis_failure_falls_back "doc"
    (Except.error AnalysisError.networkError)).1 AnalysisError.networkError rfl

/-- C6: the fallback generator ignores its input (its output equals the one
for the empty document), its summary is the fixed upload-acknowledgement
string, it carries exactly one placeholder claimant argument and one
placeholder defence point recommending solicitor review, urgency "high",
claim value 0 and track "small_claims", and the result satisfies every
AnalysisResult invariant; being a total constant function it never fails. -/
theorem fallback_fixed_and_valid (document_text : String) :
    _generate_fallback_analysis document_text = _generate_fallback_analysis "" ∧
    lookupKey (_generate_fallback_analysis document_text) "document_summary" =
      some (PyVal.str "Claimant's skeleton argument uploaded for analysis") ∧
    lookupKey (_generate_fallback_analysis document_text) "claimant_arguments" =
      some (PyVal.list [PyVal.dict
        [("argument", PyVal.str "Analysis could not be completed automatically"),
         ("legal_basis", PyVal.str "Manual review required"),
         ("strength", PyVal.str "moderate")]]) ∧
    lookupKey (_generate_fallback_analysis document_text) "defence_points" =
      some (PyVal.list [PyVal.dict
        [("defence_strategy", PyVal.str "Comprehensive document review required - please consult with a solicitor for detailed analysis"),
         ("legal_basis", PyVal.str "General civil procedure rules"),
         ("evidence_required", PyVal.str "All relevant case documents and evidence"),
         ("strength", PyVal.str "moderate"),
         ("track", PyVal.str "all_tracks")]]) ∧
    lookupKey (_generate_fallback_analysis document_text) "urgency_level" =
      some (PyVal.str "high") ∧
    lookupKey (_generate_fallback_analysis document_text) "claim_value_estimate" =
      some (PyVal.int 0) ∧
    lookupKey (_generate_fallback_analysis document_text) "track_assessment" =
      some (PyVal.str "small_claims") ∧
    isValidAnalysisResult (_generate_fallback_analysis document_text) = true :=
  ⟨rfl, rfl, rfl, rfl, rfl, rfl, rfl, rfl⟩

/-- C7 helper: a successful PDF extraction is stripped. -/
theorem extract_pdf_stripped (file_content : FileBytes) (t : String)
    (h : _extract_from_pdf file_content = Except.ok t) : isStrippedStr t = true := by
  cases hp : file_content.pdfPages with
  | none =>
      rw [_extract_from_pdf, hp] at h
      exact Except.noConfusion h
  | some pages =>
      rw [_extract_from_pdf, hp] at h
      simp only [Except.ok.injEq] at h
      rw [← h]
      exact isStrippedStr_pyStrip _

/-- C7 helper: a successful DOCX extraction is stripped. -/
theorem extract_docx_stripped (file_content : FileBytes) (t : String)
    (h : _extract_from_docx file_content = Except.ok t) : isStrippedStr t = true := by
  cases hp : file_content.docxParas with
  | none =>
      rw [_extract_from_docx, hp] at h
      exact Except.noConfusion h
  | some paras =>
      rw [_extract_from_docx, hp] at h
      simp only [Except.ok.injEq] at h
      rw [← h]
      exact isStrippedStr_pyStrip _

/-- C7 counterexample: a `txt` upload whose decoded content ends and begins
with spaces is returned exactly as decoded, with the whitespace intact — the
`txt` branch never strips, so the claim fails for the `txt` format. -/
theorem txt_not_trimmed_counterexample :
    extract_text_from_file
        ⟨Option.none, Option.none, some "  skeleton argument text  "⟩ "claim.txt" =
      Except.ok "  skeleton argument text  " ∧
    isStrippedStr "  skeleton argument text  " = false :=
  ⟨rfl, rfl⟩

/-- C7 (amended): extracted text is trimmed of leading and trailing
whitespace for the `pdf` and `doc`/`docx` formats, but the `txt` format
returns the UTF-8 decoding of the bytes unchanged, without trimming. -/
theorem extractor_trimming (file_content : FileBytes) (filename : String) :
    ((fileExtension filename = "pdf" ∨ fileExtension filename = "doc" ∨
        fileExtension filename = "docx") →
      ∀ t, extract_text_from_file file_content filename = Except.ok t →
        isStrippedStr t = true) ∧
    (fileExtension filename = "txt" →
      ∀ t, file_content.utf8Text = some t →
        extract_text_from_file file_content filename = Except.ok t) := by
  constructor
  · rintro (hext | hext | hext) t ht <;>
      simp only [extract_text_from_file, hext] at ht <;>
      simp at ht
    · exact extract_pdf_stripped file_content t ht
    · exact extract_docx_stripped file_content t ht
    · exact extract_docx_stripped file_content t ht
  · intro hext t ht
    simp only [extract_text_from_file, hext, ht]
    simp

/-- C7 witness: a two-page PDF with stray spaces extracts to a stripped
string. -/
theorem extractor_trimming_witness :
    isStrippedStr "page one \n page two" = true :=
  (extractor_trimming ⟨some ["page one ", " page two"], Option.none, Option.none⟩
    "Claim.PDF").1 (Or.inl rfl) "page one \n page two" rfl

/-- C8: the validator is idempotent — on an already-valid AnalysisResult
(all required fields present, claim value a non-negative integer, track a
valid enum member) it is the identity, and on any input at all running it a
second time changes nothing. -/
theorem validator_idempotent (a : Assoc) :
    (hasAllRequired a = true →
      (∃ n : Int, 0 ≤ n ∧ lookupKey a "claim_value_estimate" = some (PyVal.int n)) →
      isValidTrackVal (lookupKey a "track_assessment") = true →
      _validate_analysis_result a = a) ∧
    _validate_analysis_result (_validate_analysis_result a) =
      _validate_analysis_result a := by
  refine ⟨fun h1 h2 h3 => ?_, validate_idem a⟩
  obtain ⟨n, _, hn⟩ := h2
  exact validate_eq_self a h1 ⟨n, hn⟩ h3

/-- C8 witness: the (already valid) fallback analysis is a fixed point of
the validator. -/
theorem validator_idempotent_witness :
    _validate_analysis_result (_generate_fallback_analysis "x") =
      _generate_fallback_analysis "x" :=
  (validator_idempotent (_generate_fallback_analysis "x")).1 rfl
    ⟨0, by decide, rfl⟩ rfl

/-- C9: the report formatter never propagates a failure — on every fully
conformant AnalysisResult (empty fields included) the `try` body succeeds
and its rendered Markdown string is returned, and whenever the body raises
the fixed apologetic error string is returned instead. -/
theorem formatter_never_fails (analysis : Assoc) :
    (isValidAnalysisResult analysis = true →
      ∃ s, formatBody analysis = Except.ok s ∧
        format_defence_response analysis = s) ∧
    (∀ e, formatBody analysis = Except.error e →
      format_defence_response analysis =
        "Error formatting defence analysis. Please try uploading the document again.") := by
  constructor
  · intro hv
    obtain ⟨s, hs⟩ := formatBody_valid_ok analysis hv
    exact ⟨s, hs, by rw [format_defence_response, hs]⟩
  · intro e he
    rw [format_defence_response, he]

/-- C9 witness: the fallback analysis formats successfully. -/
theorem formatter_never_fails_witness :
    ∃ s, formatBody (_generate_fallback_analysis "doc") = Except.ok s ∧
      format_defence_response (_generate_fallback_analysis "doc") = s :=
  (formatter_never_fails (_generate_fallback_analysis "doc")).1 rfl

/-- C10: frame property — every key present in the input other than
`claim_value_estimate` and `track_assessment` keeps exactly its input value
in the validator output, whatever that value is. -/
theorem validator_frame (a : Assoc) (k : String) (v : PyVal)
    (h1 : k ≠ "claim_value_estimate") (h2 : k ≠ "track_assessment")
    (h : lookupKey a k = some v) :
    lookupKey (_validate_analysis_result a) k = some v := by
  rw [_validate_analysis_result, lookupKey_trackStep_ne _ _ h2,
    lookupKey_claimStep_ne _ _ h1, fillDefaults]
  exact fill_lookup_preserve required_fields a k v h

/-- C10 witness: a non-required extra key survives validation unchanged. -/
theorem validator_frame_witness :
    lookupKey (_validate_analysis_result
        [("document_summary", PyVal.str "s"), ("extra_key", PyVal.int 7)])
      "extra_key" = some (PyVal.int 7) :=
  validator_frame
    [("document_summary", PyVal.str "s"), ("extra_key", PyVal.int 7)]
    "extra_key" (PyVal.int 7) (by decide) (by decide) rfl

